import Mathlib

/-!
Verification of the streaming chunk-resumable CSV tokenizer.

The definitions below are a shallow embedding of the Rust source
(src/src/lib.rs).  Text is modelled as lists of characters: the Rust
code walks a chunk by Unicode scalar values via char_indices, and every
byte offset it ever slices at is the end of a consumed character, so
character counts stand in for byte offsets.  Finalized fields (Rust
String values built by FieldBuilder) are also lists of characters;
UTF-8 re-validation of bytes appended char-by-char cannot fail, so the
defensive Utf8Error constructor is never produced by the model, exactly
as it is unreachable through the character-level append path in the
source.
-/

/-- Embeds struct CsvConfig: delimiter, quote and escape characters. -/
structure CsvConfig where
  delimiter : Char
  quote : Char
  escape : Char
deriving DecidableEq, Repr

/-- Embeds impl Default for CsvConfig: comma, double quote, double quote. -/
def CsvConfig.default : CsvConfig :=
  { delimiter := ',', quote := '"', escape := '"' }

/-- Embeds enum CsvError.  Utf8Error is the defensive UTF-8 seam; it is
never produced at the character level. -/
inductive CsvError where
  | UnclosedQuote : CsvError
  | DataAfterClosingQuote : Char → CsvError
  | Utf8Error : CsvError
deriving DecidableEq, Repr

/-- Embeds enum CsvState. -/
inductive CsvState where
  | StartOfField : CsvState
  | InUnquotedField : CsvState
  | InQuotedField : CsvState
  | QuoteSeen : CsvState
  | CustomEscapeSeen : CsvState
  | EndOfRecord : CsvState
  | Finished : CsvState
deriving DecidableEq, Repr

/-- Embeds enum Action (the name Action itself is taken by Mathlib). -/
inductive CsvAction where
  | AppendChar : Char → CsvAction
  | AppendEscapedQuote : CsvAction
  | CommitField : CsvAction
  | CommitRow : CsvAction
  | NoOp : CsvAction
deriving DecidableEq, Repr

/-- Embeds struct StateTransition. -/
structure StateTransition where
  new_state : CsvState
  action : CsvAction
deriving DecidableEq, Repr

/-- Embeds state_handlers::handle_start_of_field; the match guards of the
source are checked in the same order. -/
def handle_start_of_field (c : Option Char) (config : CsvConfig) :
    Except CsvError StateTransition :=
  match c with
  | some ch =>
    if ch = config.quote then
      Except.ok ⟨CsvState.InQuotedField, CsvAction.NoOp⟩
    else if ch = config.delimiter then
      Except.ok ⟨CsvState.StartOfField, CsvAction.CommitField⟩
    else if ch = '\n' ∨ ch = '\r' then
      Except.ok ⟨CsvState.EndOfRecord, CsvAction.CommitRow⟩
    else
      Except.ok ⟨CsvState.InUnquotedField, CsvAction.AppendChar ch⟩
  | none => Except.ok ⟨CsvState.Finished, CsvAction.NoOp⟩

/-- Embeds state_handlers::handle_in_unquoted_field. -/
def handle_in_unquoted_field (c : Option Char) (config : CsvConfig) :
    Except CsvError StateTransition :=
  match c with
  | some ch =>
    if ch = config.delimiter then
      Except.ok ⟨CsvState.StartOfField, CsvAction.CommitField⟩
    else if ch = '\n' ∨ ch = '\r' then
      Except.ok ⟨CsvState.EndOfRecord, CsvAction.CommitRow⟩
    else
      Except.ok ⟨CsvState.InUnquotedField, CsvAction.AppendChar ch⟩
  | none => Except.ok ⟨CsvState.Finished, CsvAction.CommitField⟩

/-- Embeds state_handlers::handle_in_quoted_field, keeping the two
separate closing-quote arms (RFC mode and custom mode) of the source. -/
def handle_in_quoted_field (c : Option Char) (config : CsvConfig) :
    Except CsvError StateTransition :=
  match c with
  | some ch =>
    if ch = config.quote ∧ config.quote = config.escape then
      Except.ok ⟨CsvState.QuoteSeen, CsvAction.NoOp⟩
    else if ch = config.quote ∧ config.quote ≠ config.escape then
      Except.ok ⟨CsvState.QuoteSeen, CsvAction.NoOp⟩
    else if ch = config.escape ∧ config.quote ≠ config.escape then
      Except.ok ⟨CsvState.CustomEscapeSeen, CsvAction.NoOp⟩
    else
      Except.ok ⟨CsvState.InQuotedField, CsvAction.AppendChar ch⟩
  | none => Except.error CsvError.UnclosedQuote

/-- Embeds state_handlers::handle_quote_seen. -/
def handle_quote_seen (c : Option Char) (config : CsvConfig) :
    Except CsvError StateTransition :=
  match c with
  | some ch =>
    if ch = config.escape then
      Except.ok ⟨CsvState.InQuotedField, CsvAction.AppendEscapedQuote⟩
    else if ch = config.delimiter then
      Except.ok ⟨CsvState.StartOfField, CsvAction.CommitField⟩
    else if ch = '\n' ∨ ch = '\r' then
      Except.ok ⟨CsvState.EndOfRecord, CsvAction.CommitRow⟩
    else
      Except.error (CsvError.DataAfterClosingQuote ch)
  | none => Except.ok ⟨CsvState.Finished, CsvAction.CommitRow⟩

/-- Embeds state_handlers::handle_custom_escape_seen. -/
def handle_custom_escape_seen (c : Option Char) (_config : CsvConfig) :
    Except CsvError StateTransition :=
  match c with
  | some ch => Except.ok ⟨CsvState.InQuotedField, CsvAction.AppendChar ch⟩
  | none => Except.error CsvError.UnclosedQuote

/-- Embeds state_handlers::handle_end_of_record.  Note that the source
gives action NoOp on every arm, including the catch-all arm that moves
to StartOfField. -/
def handle_end_of_record (c : Option Char) (_config : CsvConfig) :
    Except CsvError StateTransition :=
  match c with
  | some ch =>
    if ch = '\n' ∨ ch = '\r' then
      Except.ok ⟨CsvState.EndOfRecord, CsvAction.NoOp⟩
    else
      Except.ok ⟨CsvState.StartOfField, CsvAction.NoOp⟩
  | none => Except.ok ⟨CsvState.Finished, CsvAction.NoOp⟩

/-- Embeds state_handlers::handle_finished. -/
def handle_finished (_c : Option Char) (_config : CsvConfig) :
    Except CsvError StateTransition :=
  Except.ok ⟨CsvState.Finished, CsvAction.NoOp⟩

/-- Embeds fn transition: dispatch over the current state. -/
def transition (current_state : CsvState) (c : Option Char)
    (config : CsvConfig) : Except CsvError StateTransition :=
  match current_state with
  | CsvState.StartOfField => handle_start_of_field c config
  | CsvState.InUnquotedField => handle_in_unquoted_field c config
  | CsvState.InQuotedField => handle_in_quoted_field c config
  | CsvState.QuoteSeen => handle_quote_seen c config
  | CsvState.CustomEscapeSeen => handle_custom_escape_seen c config
  | CsvState.EndOfRecord => handle_end_of_record c config
  | CsvState.Finished => handle_finished c config

/-- Embeds CsvChunkParser::is_empty_row. -/
def is_empty_row (row : List (List Char)) : Bool :=
  if row.isEmpty then
    true
  else if row.length = 1 ∧ (row.headD []).isEmpty then
    true
  else
    false

/-- Applies one CsvAction to the field builder buffer, the row builder
fields and the completed-rows accumulator, as the action match inside
CsvChunkParser::process_chunk does.  CommitField and CommitRow embed
CsvChunkParser::commit_field and commit_row (finalizing the field
buffer and pushing it; CommitRow additionally takes the finished row,
dropping it when is_empty_row holds, as the loop does). -/
def applyAct (config : CsvConfig) (a : CsvAction) (fb : List Char)
    (rb : List (List Char)) (rows : List (List (List Char))) :
    List Char × List (List Char) × List (List (List Char)) :=
  match a with
  | CsvAction.AppendChar ch => (fb ++ [ch], rb, rows)
  | CsvAction.AppendEscapedQuote => (fb ++ [config.quote], rb, rows)
  | CsvAction.CommitField => ([], rb ++ [fb], rows)
  | CsvAction.CommitRow =>
    let row := rb ++ [fb]
    ([], [], if is_empty_row row then rows else rows ++ [row])
  | CsvAction.NoOp => (fb, rb, rows)

/-- Result of the character walk of process_chunk: final state, field
builder buffer, row builder fields, completed rows, and the last
consumed index (a character count standing for the byte offset). -/
structure LoopOut where
  state : CsvState
  field_builder : List Char
  row_builder : List (List Char)
  rows : List (List (List Char))
  last_consumed_index : Nat
deriving DecidableEq, Repr

/-- Embeds the while-let walk of CsvChunkParser::process_chunk,
including the EndOfRecord terminator-merge step: when the adopted state
is EndOfRecord, the next character is peeked, transition is asked what
it would do from EndOfRecord, and the peeked character is consumed
exactly when that action is NoOp; then the state is forced back to
StartOfField.  The index i counts the characters before the current
one, matching the source's byte offsets at character granularity.
The single-character case unrolls the final iteration (whose peek sees
no next character) so that the recursion is structural. -/
def processLoop (config : CsvConfig) (cs : List Char) (i : Nat)
    (st : CsvState) (fb : List Char) (rb : List (List Char))
    (rows : List (List (List Char))) (lci : Nat) :
    Except CsvError LoopOut :=
  match cs with
  | [] => Except.ok ⟨st, fb, rb, rows, lci⟩
  | [current_char] =>
    match transition st (some current_char) config with
    | Except.error e => Except.error e
    | Except.ok t =>
      let acc := applyAct config t.action fb rb rows
      if t.new_state = CsvState.EndOfRecord then
        Except.ok ⟨CsvState.StartOfField, acc.1, acc.2.1, acc.2.2, i + 1⟩
      else
        Except.ok ⟨t.new_state, acc.1, acc.2.1, acc.2.2, i + 1⟩
  | current_char :: next_c :: rest2 =>
    match transition st (some current_char) config with
    | Except.error e => Except.error e
    | Except.ok t =>
      let acc := applyAct config t.action fb rb rows
      if t.new_state = CsvState.EndOfRecord then
        match transition CsvState.EndOfRecord (some next_c) config with
        | Except.error e => Except.error e
        | Except.ok t2 =>
          if t2.action = CsvAction.NoOp then
            processLoop config rest2 (i + 2) CsvState.StartOfField
              acc.1 acc.2.1 acc.2.2 (i + 2)
          else
            processLoop config (next_c :: rest2) (i + 1)
              CsvState.StartOfField acc.1 acc.2.1 acc.2.2 (i + 1)
      else
        processLoop config (next_c :: rest2) (i + 1) t.new_state
          acc.1 acc.2.1 acc.2.2 (i + 1)

/-- Embeds struct ChunkResult. -/
structure ChunkResult where
  complete_rows : List (List (List Char))
  leftover_data : List Char
deriving DecidableEq, Repr

/-- Embeds struct CsvChunkParser: the cross-call mutable state. -/
structure CsvChunkParser where
  state : CsvState
  config : CsvConfig
  field_builder : List Char
  row_builder : List (List Char)
deriving DecidableEq, Repr

/-- Embeds CsvChunkParser::new. -/
def CsvChunkParser.new (config : CsvConfig) : CsvChunkParser :=
  { state := CsvState.StartOfField
    config := config
    field_builder := []
    row_builder := [] }

/-- Embeds CsvChunkParser::process_chunk.  Mutation of self is modelled
by returning the updated parser next to the ChunkResult; errors abandon
the call as the source's early returns do. -/
def process_chunk (p : CsvChunkParser) (chunk : List Char) :
    Except CsvError (ChunkResult × CsvChunkParser) :=
  match processLoop p.config chunk 0 p.state p.field_builder
      p.row_builder [] 0 with
  | Except.error e => Except.error e
  | Except.ok out =>
    let finalTrans :=
      if chunk.isEmpty then
        transition out.state none p.config
      else
        match out.state with
        | CsvState.InUnquotedField => transition out.state none p.config
        | CsvState.QuoteSeen => transition out.state none p.config
        | _ => Except.ok ⟨out.state, CsvAction.NoOp⟩
    match finalTrans with
    | Except.error e => Except.error e
    | Except.ok ft =>
      let fin :=
        match ft.action with
        | CsvAction.CommitField =>
          (([] : List Char), out.row_builder ++ [out.field_builder],
            out.rows)
        | CsvAction.CommitRow =>
          let row := out.row_builder ++ [out.field_builder]
          (([] : List Char), ([] : List (List Char)),
            if is_empty_row row then out.rows else out.rows ++ [row])
        | _ => (out.field_builder, out.row_builder, out.rows)
      match ft.new_state with
      | CsvState.InQuotedField =>
        let leftover :=
          if out.last_consumed_index < chunk.length then
            chunk.drop out.last_consumed_index
          else
            []
        Except.ok (⟨fin.2.2, leftover⟩,
          { state := ft.new_state, config := p.config,
            field_builder := fin.1, row_builder := fin.2.1 })
      | CsvState.CustomEscapeSeen =>
        let leftover :=
          if out.last_consumed_index < chunk.length then
            chunk.drop out.last_consumed_index
          else
            []
        Except.ok (⟨fin.2.2, leftover⟩,
          { state := ft.new_state, config := p.config,
            field_builder := fin.1, row_builder := fin.2.1 })
      | _ =>
        Except.ok (⟨fin.2.2, []⟩,
          { state := ft.new_state, config := p.config,
            field_builder := [], row_builder := [] })

/-- Embeds the chunk loop of tests::parse_streaming_full: feed each
chunk in order to the same parser, concatenating complete_rows. -/
def feedChunks (p : CsvChunkParser) (chunks : List (List Char))
    (acc : List (List (List Char))) :
    Except CsvError (CsvChunkParser × List (List (List Char))) :=
  match chunks with
  | [] => Except.ok (p, acc)
  | c :: rest =>
    match process_chunk p c with
    | Except.error e => Except.error e
    | Except.ok r => feedChunks r.2 rest (acc ++ r.1.complete_rows)

/-- Embeds tests::parse_streaming_full: feed the chunks, then, unless
the parser already finished, feed the empty end-of-input chunk. -/
def parse_streaming_full (chunks : List (List Char))
    (config : CsvConfig) : Except CsvError (List (List (List Char))) :=
  match feedChunks (CsvChunkParser.new config) chunks [] with
  | Except.error e => Except.error e
  | Except.ok r =>
    if r.1.state = CsvState.Finished then
      Except.ok r.2
    else
      match process_chunk r.1 [] with
      | Except.error e => Except.error e
      | Except.ok fr => Except.ok (r.2 ++ fr.1.complete_rows)

/-- Helper: transition on a present character fails exactly in the
QuoteSeen state, on a character that is neither escape, delimiter, CR
nor LF, and the error carries that character. -/
theorem transition_some_error_iff (st : CsvState) (c : Char)
    (config : CsvConfig) (e : CsvError) :
    transition st (some c) config = Except.error e ↔
      (st = CsvState.QuoteSeen ∧ e = CsvError.DataAfterClosingQuote c ∧
        c ≠ config.escape ∧ c ≠ config.delimiter ∧ c ≠ '\n' ∧ c ≠ '\r') := by
  cases st <;>
    simp only [transition, handle_start_of_field, handle_in_unquoted_field,
      handle_in_quoted_field, handle_quote_seen, handle_custom_escape_seen,
      handle_end_of_record, handle_finished] <;>
    (try split_ifs) <;>
    (try simp_all) <;>
    tauto

/-- Helper: transition at end of input fails exactly from InQuotedField
or CustomEscapeSeen, and the error is always UnclosedQuote. -/
theorem transition_none_error_iff (st : CsvState) (config : CsvConfig)
    (e : CsvError) :
    transition st none config = Except.error e ↔
      (e = CsvError.UnclosedQuote ∧
        (st = CsvState.InQuotedField ∨ st = CsvState.CustomEscapeSeen)) := by
  cases st <;>
    simp [transition, handle_start_of_field, handle_in_unquoted_field,
      handle_in_quoted_field, handle_quote_seen, handle_custom_escape_seen,
      handle_end_of_record, handle_finished, eq_comm]

/-- Helper: a successful end-of-input transition always lands in the
Finished state. -/
theorem transition_none_new_state (st : CsvState) (config : CsvConfig)
    (t : StateTransition) (h : transition st none config = Except.ok t) :
    t.new_state = CsvState.Finished := by
  cases st <;>
    simp only [transition, handle_start_of_field, handle_in_unquoted_field,
      handle_in_quoted_field, handle_quote_seen, handle_custom_escape_seen,
      handle_end_of_record, handle_finished] at h <;>
    cases h <;> rfl

/-- Helper: from Finished every transition is a no-op staying in
Finished. -/
theorem transition_finished_eq (c : Option Char) (config : CsvConfig) :
    transition CsvState.Finished c config =
      Except.ok ⟨CsvState.Finished, CsvAction.NoOp⟩ := rfl

/-- Helper, by strong induction on the chunk length: a successful walk
of a non-empty chunk consumes every character (the last consumed index
reaches the end of the chunk) and never stops in EndOfRecord, because
the merge step forces the state back to StartOfField; on the empty
chunk the walk is the identity. -/
theorem processLoop_ok_shape_aux (config : CsvConfig) :
    ∀ (n : Nat) (cs : List Char), cs.length ≤ n →
    ∀ (i : Nat) (st : CsvState) (fb : List Char) (rb : List (List Char))
      (rows : List (List (List Char))) (lci : Nat) (out : LoopOut),
    processLoop config cs i st fb rb rows lci = Except.ok out →
    (if cs = [] then out = ⟨st, fb, rb, rows, lci⟩
     else out.last_consumed_index = i + cs.length ∧
       out.state ≠ CsvState.EndOfRecord) := by
  intro n
  induction n with
  | zero =>
    intro cs hlen i st fb rb rows lci out h
    have hcs : cs = [] := List.eq_nil_of_length_eq_zero (Nat.le_zero.mp hlen)
    subst hcs
    simp only [processLoop] at h
    simp_all
  | succ n ih =>
    intro cs hlen i st fb rb rows lci out h
    obtain (_ | ⟨c, (_ | ⟨c2, rest2⟩)⟩) := cs
    · simp only [processLoop] at h
      simp_all
    · cases htr : transition st (some c) config with
      | error e2 =>
        simp only [processLoop, htr] at h
        cases h
      | ok t =>
        simp only [processLoop, htr] at h
        by_cases hEOR : t.new_state = CsvState.EndOfRecord
        · rw [if_pos hEOR] at h
          cases h
          simp
        · rw [if_neg hEOR] at h
          cases h
          simp [hEOR]
    · cases htr : transition st (some c) config with
      | error e2 =>
        simp only [processLoop, htr] at h
        cases h
      | ok t =>
        simp only [processLoop, htr] at h
        by_cases hEOR : t.new_state = CsvState.EndOfRecord
        · rw [if_pos hEOR] at h
          cases htr2 : transition CsvState.EndOfRecord (some c2) config with
          | error e2 =>
            simp only [htr2] at h
            cases h
          | ok t2 =>
            simp only [htr2] at h
            by_cases hNoOp : t2.action = CsvAction.NoOp
            · rw [if_pos hNoOp] at h
              have hrec := ih rest2 (by simp at hlen; omega)
                (i + 2) CsvState.StartOfField _ _ _ (i + 2) out h
              by_cases hr : rest2 = []
              · subst hr
                simp at hrec
                subst hrec
                simp
              · rw [if_neg hr] at hrec
                refine ⟨?_, hrec.2⟩
                rw [hrec.1]
                simp
                omega
            · rw [if_neg hNoOp] at h
              have hrec := ih (c2 :: rest2) (by simp at hlen ⊢; omega)
                (i + 1) CsvState.StartOfField _ _ _ (i + 1) out h
              simp only [List.cons_ne_nil, if_false] at hrec
              refine ⟨?_, hrec.2⟩
              rw [hrec.1]
              simp
              omega
        · rw [if_neg hEOR] at h
          have hrec := ih (c2 :: rest2) (by simp at hlen ⊢; omega)
            (i + 1) t.new_state _ _ _ (i + 1) out h
          simp only [List.cons_ne_nil, if_false] at hrec
          refine ⟨?_, hrec.2⟩
          rw [hrec.1]
          simp
          omega

/-- Helper: instantiation of the walk shape lemma at the chunk
length. -/
theorem processLoop_ok_shape (config : CsvConfig) (cs : List Char) (i : Nat)
    (st : CsvState) (fb : List Char) (rb : List (List Char))
    (rows : List (List (List Char))) (lci : Nat) (out : LoopOut)
    (h : processLoop config cs i st fb rb rows lci = Except.ok out) :
    (if cs = [] then out = ⟨st, fb, rb, rows, lci⟩
     else out.last_consumed_index = i + cs.length ∧
       out.state ≠ CsvState.EndOfRecord) :=
  processLoop_ok_shape_aux config cs.length cs le_rfl i st fb rb rows lci out h

/-- Helper, by strong induction on the chunk length: the only error the
character walk can raise is DataAfterClosingQuote. -/
theorem processLoop_error_shape_aux (config : CsvConfig) :
    ∀ (n : Nat) (cs : List Char), cs.length ≤ n →
    ∀ (i : Nat) (st : CsvState) (fb : List Char) (rb : List (List Char))
      (rows : List (List (List Char))) (lci : Nat) (e : CsvError),
    processLoop config cs i st fb rb rows lci = Except.error e →
    ∃ c, e = CsvError.DataAfterClosingQuote c := by
  intro n
  induction n with
  | zero =>
    intro cs hlen i st fb rb rows lci e h
    have hcs : cs = [] := List.eq_nil_of_length_eq_zero (Nat.le_zero.mp hlen)
    subst hcs
    simp only [processLoop] at h
    cases h
  | succ n ih =>
    intro cs hlen i st fb rb rows lci e h
    obtain (_ | ⟨c, (_ | ⟨c2, rest2⟩)⟩) := cs
    · simp only [processLoop] at h
      cases h
    · cases htr : transition st (some c) config with
      | error e2 =>
        simp only [processLoop, htr] at h
        cases h
        exact ⟨c, ((transition_some_error_iff st c config _).mp htr).2.1⟩
      | ok t =>
        simp only [processLoop, htr] at h
        by_cases hEOR : t.new_state = CsvState.EndOfRecord
        · rw [if_pos hEOR] at h
          cases h
        · rw [if_neg hEOR] at h
          cases h
    · cases htr : transition st (some c) config with
      | error e2 =>
        simp only [processLoop, htr] at h
        cases h
        exact ⟨c, ((transition_some_error_iff st c config _).mp htr).2.1⟩
      | ok t =>
        simp only [processLoop, htr] at h
        by_cases hEOR : t.new_state = CsvState.EndOfRecord
        · rw [if_pos hEOR] at h
          cases htr2 : transition CsvState.EndOfRecord (some c2) config with
          | error e2 =>
            have habs :=
              (transition_some_error_iff CsvState.EndOfRecord c2 config e2).mp htr2
            simp at habs
          | ok t2 =>
            simp only [htr2] at h
            by_cases hNoOp : t2.action = CsvAction.NoOp
            · rw [if_pos hNoOp] at h
              exact ih rest2 (by simp at hlen; omega) _ _ _ _ _ _ _ h
            · rw [if_neg hNoOp] at h
              exact ih (c2 :: rest2) (by simp at hlen ⊢; omega) _ _ _ _ _ _ _ h
        · rw [if_neg hEOR] at h
          exact ih (c2 :: rest2) (by simp at hlen ⊢; omega) _ _ _ _ _ _ _ h

/-- Helper: instantiation of the walk error lemma at the chunk
length. -/
theorem processLoop_error_shape (config : CsvConfig) (cs : List Char)
    (i : Nat) (st : CsvState) (fb : List Char) (rb : List (List Char))
    (rows : List (List (List Char))) (lci : Nat) (e : CsvError)
    (h : processLoop config cs i st fb rb rows lci = Except.error e) :
    ∃ c, e = CsvError.DataAfterClosingQuote c :=
  processLoop_error_shape_aux config cs.length cs le_rfl i st fb rb rows lci e h

/-- Helper, by strong induction on the chunk length: the walk from the
Finished state changes nothing except the last consumed index. -/
theorem processLoop_finished_aux (config : CsvConfig) :
    ∀ (n : Nat) (cs : List Char), cs.length ≤ n →
    ∀ (i : Nat) (fb : List Char) (rb : List (List Char))
      (rows : List (List (List Char))) (lci : Nat),
    processLoop config cs i CsvState.Finished fb rb rows lci =
      Except.ok ⟨CsvState.Finished, fb, rb, rows,
        if cs = [] then lci else i + cs.length⟩ := by
  intro n
  induction n with
  | zero =>
    intro cs hlen i fb rb rows lci
    have hcs : cs = [] := List.eq_nil_of_length_eq_zero (Nat.le_zero.mp hlen)
    subst hcs
    simp [processLoop]
  | succ n ih =>
    intro cs hlen i fb rb rows lci
    obtain (_ | ⟨c, (_ | ⟨c2, rest2⟩)⟩) := cs
    · simp [processLoop]
    · simp [processLoop, transition_finished_eq, applyAct]
    · simp only [processLoop, transition_finished_eq, applyAct]
      rw [if_neg (show CsvState.Finished ≠ CsvState.EndOfRecord from by decide)]
      rw [ih (c2 :: rest2) (by simp at hlen ⊢; omega) (i + 1) fb rb rows (i + 1)]
      simp
      omega

/-- Helper: instantiation of the Finished walk lemma at the chunk
length. -/
theorem processLoop_finished (config : CsvConfig) (cs : List Char) (i : Nat)
    (fb : List Char) (rb : List (List Char)) (rows : List (List (List Char)))
    (lci : Nat) :
    processLoop config cs i CsvState.Finished fb rb rows lci =
      Except.ok ⟨CsvState.Finished, fb, rb, rows,
        if cs = [] then lci else i + cs.length⟩ :=
  processLoop_finished_aux config cs.length cs le_rfl i fb rb rows lci

/-- C9: Finished is terminal.  Once a parser instance reaches the
Finished state, process_chunk on any chunk, empty or not, returns an
empty row list and empty leftover data, and the stored state remains
Finished (with the accumulators cleared by the boundary reset). -/
theorem c9_finished_terminal (p : CsvChunkParser) (chunk : List Char)
    (h : p.state = CsvState.Finished) :
    process_chunk p chunk =
      Except.ok (⟨[], []⟩, ⟨CsvState.Finished, p.config, [], []⟩) := by
  simp [process_chunk, h, processLoop_finished, transition_finished_eq]

/-- C2 (amended): leftover_data is the suffix of the chunk after the
last consumed offset, and because the walk advances that offset past
every character of the chunk, every successful process_chunk call
returns empty leftover_data, including calls that resolve to
InQuotedField or CustomEscapeSeen; partial progress is carried only in
the retained state and accumulators. -/
theorem c2_leftover_always_empty (p : CsvChunkParser) (chunk : List Char)
    (r : ChunkResult) (p2 : CsvChunkParser)
    (h : process_chunk p chunk = Except.ok (r, p2)) :
    r.leftover_data = [] := by
  unfold process_chunk at h
  cases hloop : processLoop p.config chunk 0 p.state p.field_builder
      p.row_builder [] 0 with
  | error e =>
    simp only [hloop] at h
    cases h
  | ok out =>
    have hshape := processLoop_ok_shape p.config chunk 0 p.state
      p.field_builder p.row_builder [] 0 out hloop
    simp only [hloop] at h
    split at h
    · cases h
    · rename_i x ft hft
      obtain ⟨ns, na⟩ := ft
      cases ns <;>
        simp only [Except.ok.injEq, Prod.mk.injEq] at h <;>
        obtain ⟨hr, hp2⟩ := h <;>
        subst hr <;>
        try rfl
      all_goals {
        by_cases hc : chunk = []
        · subst hc
          simp
        · rw [if_neg hc] at hshape
          simp [hshape.1]
      }

/-- Helper: end of input inside a quoted field is UnclosedQuote. -/
theorem transition_iqf_none (config : CsvConfig) :
    transition CsvState.InQuotedField none config =
      Except.error CsvError.UnclosedQuote := rfl

/-- Helper: end of input right after a custom escape is
UnclosedQuote. -/
theorem transition_ces_none (config : CsvConfig) :
    transition CsvState.CustomEscapeSeen none config =
      Except.error CsvError.UnclosedQuote := rfl

/-- Helper: process_chunk can only fail with UnclosedQuote or
DataAfterClosingQuote. -/
theorem process_chunk_error_shape (p : CsvChunkParser) (chunk : List Char)
    (e : CsvError) (h : process_chunk p chunk = Except.error e) :
    e = CsvError.UnclosedQuote ∨
      ∃ c, e = CsvError.DataAfterClosingQuote c := by
  unfold process_chunk at h
  cases hloop : processLoop p.config chunk 0 p.state p.field_builder
      p.row_builder [] 0 with
  | error e2 =>
    simp only [hloop] at h
    cases h
    exact Or.inr (processLoop_error_shape _ _ _ _ _ _ _ _ _ hloop)
  | ok out =>
    simp only [hloop] at h
    split at h
    · rename_i e1 hft
      cases h
      by_cases hc : chunk.isEmpty
      · rw [if_pos hc] at hft
        exact Or.inl ((transition_none_error_iff _ _ _).mp hft).1
      · rw [if_neg hc] at hft
        cases hst : out.state <;> simp only [hst] at hft <;> cases hft
    · rename_i ft hft
      obtain ⟨ns, na⟩ := ft
      cases ns <;> simp_all

/-- Helper: process_chunk fails with UnclosedQuote exactly on the empty
end-of-input chunk from InQuotedField or CustomEscapeSeen. -/
theorem process_chunk_uq_iff (p : CsvChunkParser) (chunk : List Char) :
    process_chunk p chunk = Except.error CsvError.UnclosedQuote ↔
      (chunk = [] ∧ (p.state = CsvState.InQuotedField ∨
        p.state = CsvState.CustomEscapeSeen)) := by
  constructor
  · intro h
    unfold process_chunk at h
    cases hloop : processLoop p.config chunk 0 p.state p.field_builder
        p.row_builder [] 0 with
    | error e2 =>
      simp only [hloop] at h
      cases h
      obtain ⟨c, hc⟩ := processLoop_error_shape _ _ _ _ _ _ _ _ _ hloop
      cases hc
    | ok out =>
      have hshape := processLoop_ok_shape p.config chunk 0 p.state
        p.field_builder p.row_builder [] 0 out hloop
      simp only [hloop] at h
      split at h
      · rename_i e1 hft
        cases h
        by_cases hc : chunk.isEmpty
        · have hcnil : chunk = [] := by simpa [List.isEmpty_iff] using hc
          subst hcnil
          rw [if_pos rfl] at hshape
          subst hshape
          rw [if_pos (by simp)] at hft
          have hiff := (transition_none_error_iff _ _ _).mp hft
          exact ⟨rfl, by simpa using hiff.2⟩
        · rw [if_neg hc] at hft
          cases hst : out.state <;> simp only [hst] at hft <;> cases hft
      · rename_i ft hft
        obtain ⟨ns, na⟩ := ft
        cases ns <;> simp_all
  · rintro ⟨rfl, hstate⟩
    cases hstate with
    | inl h1 => simp [process_chunk, processLoop, h1, transition_iqf_none]
    | inr h1 => simp [process_chunk, processLoop, h1, transition_ces_none]

/-- Helper: end of input in an unquoted field commits the field and
finishes. -/
theorem transition_iuf_none (config : CsvConfig) :
    transition CsvState.InUnquotedField none config =
      Except.ok ⟨CsvState.Finished, CsvAction.CommitField⟩ := rfl

/-- Helper: end of input right after a closing quote commits the row
and finishes. -/
theorem transition_qs_none (config : CsvConfig) :
    transition CsvState.QuoteSeen none config =
      Except.ok ⟨CsvState.Finished, CsvAction.CommitRow⟩ := rfl

/-- Helper: the end-of-chunk resolution either finishes the parse (on
the empty chunk, or when the walk stopped in InUnquotedField or
QuoteSeen) or keeps the walk state, which is then neither
InUnquotedField nor QuoteSeen. -/
theorem process_chunk_final_state (p : CsvChunkParser) (chunk : List Char)
    (out : LoopOut) (ft : StateTransition)
    (hft : (if chunk.isEmpty then transition out.state none p.config
        else
          match out.state with
          | CsvState.InUnquotedField => transition out.state none p.config
          | CsvState.QuoteSeen => transition out.state none p.config
          | _ => Except.ok ⟨out.state, CsvAction.NoOp⟩) = Except.ok ft) :
    ft.new_state = CsvState.Finished ∨
      (chunk.isEmpty = false ∧ ft.new_state = out.state ∧
        out.state ≠ CsvState.InUnquotedField ∧
        out.state ≠ CsvState.QuoteSeen) := by
  by_cases hc : chunk.isEmpty
  · rw [if_pos hc] at hft
    exact Or.inl (transition_none_new_state _ _ _ hft)
  · rw [if_neg hc] at hft
    cases hst : out.state with
    | InUnquotedField =>
      simp only [hst] at hft
      rw [transition_iuf_none] at hft
      cases hft
      exact Or.inl rfl
    | QuoteSeen =>
      simp only [hst] at hft
      rw [transition_qs_none] at hft
      cases hft
      exact Or.inl rfl
    | StartOfField =>
      simp only [hst] at hft
      cases hft
      refine Or.inr ⟨by simpa using hc, rfl, ?_, ?_⟩ <;> simp
    | InQuotedField =>
      simp only [hst] at hft
      cases hft
      refine Or.inr ⟨by simpa using hc, rfl, ?_, ?_⟩ <;> simp
    | CustomEscapeSeen =>
      simp only [hst] at hft
      cases hft
      refine Or.inr ⟨by simpa using hc, rfl, ?_, ?_⟩ <;> simp
    | EndOfRecord =>
      simp only [hst] at hft
      cases hft
      refine Or.inr ⟨by simpa using hc, rfl, ?_, ?_⟩ <;> simp
    | Finished =>
      simp only [hst] at hft
      cases hft
      refine Or.inr ⟨by simpa using hc, rfl, ?_, ?_⟩ <;> simp

/-- C10: post-call state invariant.  After every successful
process_chunk call the stored state is StartOfField, InQuotedField,
CustomEscapeSeen or Finished, never InUnquotedField, QuoteSeen or
EndOfRecord; outside the two quoted-continuation states both
accumulators are cleared; and whenever the character walk of a chunk
ends in InUnquotedField or QuoteSeen, the end-of-chunk resolution
leaves the parser Finished with both accumulators cleared, so committed
content that was not emitted can never surface in a later call. -/
theorem c10_post_call_state_invariant (p : CsvChunkParser)
    (chunk : List Char) (r : ChunkResult) (p2 : CsvChunkParser)
    (h : process_chunk p chunk = Except.ok (r, p2)) :
    (p2.state = CsvState.StartOfField ∨ p2.state = CsvState.InQuotedField ∨
      p2.state = CsvState.CustomEscapeSeen ∨
      p2.state = CsvState.Finished) ∧
    (p2.state = CsvState.InQuotedField ∨
      p2.state = CsvState.CustomEscapeSeen ∨
      (p2.field_builder = [] ∧ p2.row_builder = [])) ∧
    (∀ out, processLoop p.config chunk 0 p.state p.field_builder
        p.row_builder [] 0 = Except.ok out →
      (out.state = CsvState.InUnquotedField ∨
        out.state = CsvState.QuoteSeen) →
      p2.state = CsvState.Finished ∧ p2.field_builder = [] ∧
        p2.row_builder = []) := by
  unfold process_chunk at h
  cases hloop : processLoop p.config chunk 0 p.state p.field_builder
      p.row_builder [] 0 with
  | error e =>
    simp only [hloop] at h
    cases h
  | ok out =>
    have hshape := processLoop_ok_shape p.config chunk 0 p.state
      p.field_builder p.row_builder [] 0 out hloop
    simp only [hloop] at h
    split at h
    · cases h
    · rename_i ft hft
      have hfs := process_chunk_final_state p chunk out ft hft
      obtain ⟨ns, na⟩ := ft
      simp only at hfs
      cases ns with
      | StartOfField =>
        simp only [Except.ok.injEq, Prod.mk.injEq] at h
        obtain ⟨hr, hp2⟩ := h
        subst hp2
        rcases hfs with hfin | ⟨hne, hsame, hnIUF, hnQS⟩
        · cases hfin
        · refine ⟨Or.inl rfl, Or.inr (Or.inr ⟨rfl, rfl⟩), ?_⟩
          intro out2 h2 hstq
          cases h2
          rw [← hsame] at hstq
          simp at hstq
      | InUnquotedField =>
        simp only [Except.ok.injEq, Prod.mk.injEq] at h
        obtain ⟨hr, hp2⟩ := h
        subst hp2
        rcases hfs with hfin | ⟨hne, hsame, hnIUF, hnQS⟩
        · cases hfin
        · exact absurd hsame.symm hnIUF
      | InQuotedField =>
        simp only [Except.ok.injEq, Prod.mk.injEq] at h
        obtain ⟨hr, hp2⟩ := h
        subst hp2
        refine ⟨Or.inr (Or.inl rfl), Or.inl rfl, ?_⟩
        intro out2 h2 hstq
        cases h2
        rcases hfs with hfin | ⟨hne, hsame, hnIUF, hnQS⟩
        · cases hfin
        · rw [← hsame] at hstq
          simp at hstq
      | QuoteSeen =>
        simp only [Except.ok.injEq, Prod.mk.injEq] at h
        obtain ⟨hr, hp2⟩ := h
        subst hp2
        rcases hfs with hfin | ⟨hne, hsame, hnIUF, hnQS⟩
        · cases hfin
        · exact absurd hsame.symm hnQS
      | CustomEscapeSeen =>
        simp only [Except.ok.injEq, Prod.mk.injEq] at h
        obtain ⟨hr, hp2⟩ := h
        subst hp2
        refine ⟨Or.inr (Or.inr (Or.inl rfl)), Or.inr (Or.inl rfl), ?_⟩
        intro out2 h2 hstq
        cases h2
        rcases hfs with hfin | ⟨hne, hsame, hnIUF, hnQS⟩
        · cases hfin
        · rw [← hsame] at hstq
          simp at hstq
      | EndOfRecord =>
        simp only [Except.ok.injEq, Prod.mk.injEq] at h
        obtain ⟨hr, hp2⟩ := h
        subst hp2
        rcases hfs with hfin | ⟨hne, hsame, hnIUF, hnQS⟩
        · cases hfin
        · rw [if_neg (by simpa [List.isEmpty_iff] using hne)] at hshape
          exact absurd hsame.symm hshape.2
      | Finished =>
        simp only [Except.ok.injEq, Prod.mk.injEq] at h
        obtain ⟨hr, hp2⟩ := h
        subst hp2
        exact ⟨Or.inr (Or.inr (Or.inr rfl)), Or.inr (Or.inr ⟨rfl, rfl⟩),
          fun out2 h2 hstq => ⟨rfl, rfl, rfl⟩⟩

/-- C4: UnclosedQuote is raised exactly when the designated empty
end-of-input chunk is processed while the parser state is InQuotedField
or CustomEscapeSeen; a non-empty chunk never raises UnclosedQuote: it
either succeeds (states pending more data are left untouched) or fails
with DataAfterClosingQuote. -/
theorem c4_unclosed_quote_only_at_end_of_input :
    (∀ (p : CsvChunkParser) (chunk : List Char),
      process_chunk p chunk = Except.error CsvError.UnclosedQuote ↔
        (chunk = [] ∧ (p.state = CsvState.InQuotedField ∨
          p.state = CsvState.CustomEscapeSeen))) ∧
    (∀ (p : CsvChunkParser) (chunk : List Char), chunk ≠ [] →
      (∃ res, process_chunk p chunk = Except.ok res) ∨
      (∃ c, process_chunk p chunk =
        Except.error (CsvError.DataAfterClosingQuote c))) := by
  refine ⟨fun p chunk => process_chunk_uq_iff p chunk, fun p chunk hne => ?_⟩
  cases hres : process_chunk p chunk with
  | ok res => exact Or.inl ⟨res, rfl⟩
  | error e =>
    cases process_chunk_error_shape p chunk e hres with
    | inl hUQ =>
      subst hUQ
      exact absurd ((process_chunk_uq_iff p chunk).mp hres).1 hne
    | inr hD =>
      obtain ⟨c, rfl⟩ := hD
      exact Or.inr ⟨c, rfl⟩

/-- C4 witness: the empty chunk from InQuotedField raises
UnclosedQuote, and a concrete non-empty chunk does not. -/
theorem c4_witness :
    process_chunk ⟨CsvState.InQuotedField, CsvConfig.default, [], []⟩ [] =
      Except.error CsvError.UnclosedQuote ∧
    ((∃ res, process_chunk (CsvChunkParser.new CsvConfig.default) [','] =
        Except.ok res) ∨
      (∃ c, process_chunk (CsvChunkParser.new CsvConfig.default) [','] =
        Except.error (CsvError.DataAfterClosingQuote c))) :=
  ⟨(c4_unclosed_quote_only_at_end_of_input.1
        ⟨CsvState.InQuotedField, CsvConfig.default, [], []⟩ []).mpr
      ⟨rfl, Or.inl rfl⟩,
    c4_unclosed_quote_only_at_end_of_input.2
      (CsvChunkParser.new CsvConfig.default) [','] (by simp)⟩

/-- C5: process_chunk fails with DataAfterClosingQuote exactly when a
character that is neither delimiter, record terminator (CR or LF) nor
escape character is read in state QuoteSeen, reporting that character;
at the transition level this is an exact characterisation of all
mid-chunk errors, and on the concrete chunk of a quoted word followed
by data the parse fails with DataAfterClosingQuote of the letter d. -/
theorem c5_data_after_closing_quote_iff :
    (∀ (st : CsvState) (c : Char) (config : CsvConfig) (e : CsvError),
      transition st (some c) config = Except.error e ↔
        (st = CsvState.QuoteSeen ∧ e = CsvError.DataAfterClosingQuote c ∧
          c ≠ config.escape ∧ c ≠ config.delimiter ∧
          c ≠ '\n' ∧ c ≠ '\r')) ∧
    process_chunk (CsvChunkParser.new CsvConfig.default)
        (String.toList "\"bad\"data\n") =
      Except.error (CsvError.DataAfterClosingQuote 'd') :=
  ⟨transition_some_error_iff, rfl⟩

/-- C5 witness: the transition-level characterisation applied at the
letter d after a closing quote under the default configuration. -/
theorem c5_witness :
    transition CsvState.QuoteSeen (some 'd') CsvConfig.default =
      Except.error (CsvError.DataAfterClosingQuote 'd') :=
  (c5_data_after_closing_quote_iff.1 CsvState.QuoteSeen 'd'
      CsvConfig.default (CsvError.DataAfterClosingQuote 'd')).mpr
    ⟨rfl, rfl, by decide, by decide, by decide, by decide⟩

/-- C6: from QuoteSeen, reading the configured escape character
returns to InQuotedField with the AppendEscapedQuote action, whose
effect appends exactly one literal quote character to the field buffer,
in every configuration (RFC mode and custom mode alike); the cited
RFC-mode example row with doubled quotes parses to its three expected
fields. -/
theorem c6_escaped_quote_appends_literal_quote :
    (∀ config : CsvConfig,
      transition CsvState.QuoteSeen (some config.escape) config =
        Except.ok ⟨CsvState.InQuotedField, CsvAction.AppendEscapedQuote⟩) ∧
    (∀ (config : CsvConfig) (fb : List Char) (rb : List (List Char))
        (rows : List (List (List Char))),
      applyAct config CsvAction.AppendEscapedQuote fb rb rows =
        (fb ++ [config.quote], rb, rows)) ∧
    process_chunk (CsvChunkParser.new CsvConfig.default)
        (String.toList "Field1,\"Value with \"\"Escaped\"\" Quote\",Field3\n") =
      Except.ok (⟨[[String.toList "Field1",
          String.toList "Value with \"Escaped\" Quote",
          String.toList "Field3"]], []⟩,
        ⟨CsvState.StartOfField, CsvConfig.default, [], []⟩) := by
  refine ⟨?_, ?_, rfl⟩
  · intro config
    simp [transition, handle_quote_seen]
  · intro config fb rb rows
    rfl

/-- C7: from CustomEscapeSeen every character is appended literally
and the state returns to InQuotedField, for every configuration and
character, so the escaped character is never re-interpreted; the cited
custom-escape example row parses to its three expected fields. -/
theorem c7_custom_escape_literal :
    (∀ (config : CsvConfig) (c : Char),
      transition CsvState.CustomEscapeSeen (some c) config =
        Except.ok ⟨CsvState.InQuotedField, CsvAction.AppendChar c⟩) ∧
    process_chunk (CsvChunkParser.new ⟨',', '"', '\\'⟩)
        (String.toList "A,\"Value with \\\"Escaped\\\" Quote\",B\n") =
      Except.ok (⟨[[String.toList "A",
          String.toList "Value with \"Escaped\" Quote",
          String.toList "B"]], []⟩,
        ⟨CsvState.StartOfField, ⟨',', '"', '\\'⟩, [], []⟩) :=
  ⟨fun _config _c => rfl, rfl⟩

/-- C1 (refuting evaluation): the claim says the terminator-merge step
consumes the peeked character only when it is CR or LF and that no
other character is lost.  In the code, handle_end_of_record returns the
NoOp action for every character, including the data-character arm that
moves to StartOfField, and the merge step consumes the peeked character
whenever the action is NoOp.  Hence on the chunk A LF B LF the peeked
character B is consumed by the merge step and lost: the output contains
only the row A, and the parser is left cleanly at StartOfField. -/
theorem c1_merge_step_consumes_data_char :
    transition CsvState.EndOfRecord (some 'B') CsvConfig.default =
      Except.ok ⟨CsvState.StartOfField, CsvAction.NoOp⟩ ∧
    process_chunk (CsvChunkParser.new CsvConfig.default)
        (String.toList "A\nB\n") =
      Except.ok (⟨[[['A']]], []⟩,
        ⟨CsvState.StartOfField, CsvConfig.default, [], []⟩) :=
  ⟨rfl, rfl⟩

/-- C3 (refuting evaluation): chunk-invariance fails at a split placed
immediately after a record terminator.  Feeding A LF B LF as one chunk
yields only the row A (the merge step consumes and drops B), while
feeding the same text as the two chunks A LF and B LF yields the rows A
and B, and the two row sequences differ. -/
theorem c3_chunk_invariance_violated :
    parse_streaming_full [String.toList "A\nB\n"] CsvConfig.default =
      Except.ok [[['A']]] ∧
    parse_streaming_full [String.toList "A\n", String.toList "B\n"]
        CsvConfig.default = Except.ok [[['A']], [['B']]] ∧
    ([[['A']]] : List (List (List Char))) ≠ [[['A']], [['B']]] :=
  ⟨rfl, rfl, by decide⟩

/-- C8 (cited example plus refuting evaluation): the cited input with
blank lines between three rows does produce exactly the three rows, but
the general collapse of consecutive record terminators fails: with
three consecutive LF characters between two records, the merge of the
third terminator consumes the following data character, so A LF LF LF B
LF yields only the row A instead of the rows A and B. -/
theorem c8_blank_line_example_and_odd_run_failure :
    process_chunk (CsvChunkParser.new CsvConfig.default)
        (String.toList "Row1\n\nRow2\r\n\r\nRow3\n") =
      Except.ok (⟨[[String.toList "Row1"], [String.toList "Row2"],
          [String.toList "Row3"]], []⟩,
        ⟨CsvState.StartOfField, CsvConfig.default, [], []⟩) ∧
    process_chunk (CsvChunkParser.new CsvConfig.default)
        (String.toList "A\n\n\nB\n") =
      Except.ok (⟨[[['A']]], []⟩,
        ⟨CsvState.StartOfField, CsvConfig.default, [], []⟩) :=
  ⟨rfl, rfl⟩

/-- C2 counterexample: a chunk consisting of a comma-separated prefix
followed by an unterminated quoted field resolves to InQuotedField, yet
leftover_data is empty, not the non-empty unconsumed suffix the claim
requires; the pending text lives only in the retained field
accumulator. -/
theorem c2_counterexample :
    process_chunk (CsvChunkParser.new CsvConfig.default)
        (String.toList "A,\"pending") =
      Except.ok (⟨[], []⟩,
        ⟨CsvState.InQuotedField, CsvConfig.default,
          String.toList "pending", [['A']]⟩) :=
  rfl

/-- C2 witness: the amended theorem applied to the concrete
unterminated-quote chunk. -/
theorem c2_leftover_always_empty_witness :
    (⟨[], []⟩ : ChunkResult).leftover_data = [] :=
  c2_leftover_always_empty (CsvChunkParser.new CsvConfig.default)
    (String.toList "A,\"pending") ⟨[], []⟩
    ⟨CsvState.InQuotedField, CsvConfig.default,
      String.toList "pending", [['A']]⟩ rfl

/-- C9 witness: a Finished parser with stale accumulator content fed a
concrete non-empty chunk. -/
theorem c9_finished_terminal_witness :
    process_chunk ⟨CsvState.Finished, CsvConfig.default, ['x'], [['y']]⟩
        (String.toList "ab") =
      Except.ok (⟨[], []⟩,
        ⟨CsvState.Finished, CsvConfig.default, [], []⟩) :=
  c9_finished_terminal
    ⟨CsvState.Finished, CsvConfig.default, ['x'], [['y']]⟩
    (String.toList "ab") rfl

/-- C10 witness: the invariant applied to a concrete single-character
chunk, which finishes the parse with cleared accumulators. -/
theorem c10_witness :
    ((⟨CsvState.Finished, CsvConfig.default, [], []⟩ : CsvChunkParser).state
        = CsvState.StartOfField ∨
      (⟨CsvState.Finished, CsvConfig.default, [], []⟩ : CsvChunkParser).state
        = CsvState.InQuotedField ∨
      (⟨CsvState.Finished, CsvConfig.default, [], []⟩ : CsvChunkParser).state
        = CsvState.CustomEscapeSeen ∨
      (⟨CsvState.Finished, CsvConfig.default, [], []⟩ : CsvChunkParser).state
        = CsvState.Finished) ∧
    ((⟨CsvState.Finished, CsvConfig.default, [], []⟩ : CsvChunkParser).state
        = CsvState.InQuotedField ∨
      (⟨CsvState.Finished, CsvConfig.default, [], []⟩ : CsvChunkParser).state
        = CsvState.CustomEscapeSeen ∨
      ((⟨CsvState.Finished, CsvConfig.default, [], []⟩ :
          CsvChunkParser).field_builder = [] ∧
        (⟨CsvState.Finished, CsvConfig.default, [], []⟩ :
          CsvChunkParser).row_builder = [])) :=
  ⟨(c10_post_call_state_invariant (CsvChunkParser.new CsvConfig.default)
      ['x'] ⟨[], []⟩ ⟨CsvState.Finished, CsvConfig.default, [], []⟩ rfl).1,
    (c10_post_call_state_invariant (CsvChunkParser.new CsvConfig.default)
      ['x'] ⟨[], []⟩ ⟨CsvState.Finished, CsvConfig.default, [], []⟩ rfl).2.1⟩
